import Mathlib

/-!
Verification of the gflags bash-completion pipeline
(`src/gflags_completions.cc`) against its natural-language specification.

Strings are modelled as `List Char`; `std::string::find` is modelled by
`findSub` (returning `Option Nat` instead of `npos`); the registry snapshot
is a `List CommandLineFlagInfo`; the pointer-ordered
`set<const CommandLineFlagInfo *>` produced by the matcher iterates in
snapshot order (pointers into a vector are address-ordered), so it is
modelled as the order-preserving filtered list.

The long-format renderer `GetLongFlagLine` calls `DescribeOneFlag`, which
is not part of this repository's sources (the spec treats it as an opaque
formatting collaborator), so the output pass is parameterized by the
long-format renderer `glp : List Char → CommandLineFlagInfo → List Char`.
-/

set_option maxRecDepth 4096

/-- One registered flag's metadata, mirroring the fields of
`CommandLineFlagInfo` that the completion module reads. -/
structure CommandLineFlagInfo where
  name : List Char
  type : List Char
  description : List Char
  current_value : List Char
  default_value : List Char
  filename : List Char
deriving DecidableEq, Repr

/-- Search options deduced from the cursor word, mirroring
`struct CompletionOptions` (all fields default-initialized to false). -/
structure CompletionOptions where
  flag_name_substring_search : Bool := false
  flag_location_substring_search : Bool := false
  flag_description_substring_search : Bool := false
  return_all_matching_flags : Bool := false
  force_no_update : Bool := false
deriving DecidableEq, Repr

/-- `RemoveTrailingChar`: returns the shortened string when the last
character is `c`, `none` when nothing was removed. -/
def RemoveTrailingChar (str : List Char) (c : Char) : Option (List Char) :=
  match str.getLast? with
  | some d => if d = c then some str.dropLast else none
  | none => none

/-- The suffix-marker loop of `CanonicalizeCursorWordAndSearchOptions`:
walk backwards consuming up to three trailing question marks and up to one
trailing plus, in any order, re-examining the new last character after
each removal. Each iteration that continues the loop increments one of the
bounded counters, so the loop body runs at most `(3 - qm) + (1 - pl)`
times; `fuel` is an upper bound on that quantity (see
`stripMarkersGo_fuel_irrelevant`), making the recursion structural. -/
def stripMarkersGo : Nat → List Char → Nat → Nat → List Char × Nat × Nat
  | 0, tok, qm, pl => (tok, qm, pl)
  | Nat.succ fuel, tok, qm, pl =>
    if qm < 3 then
      match RemoveTrailingChar tok '?' with
      | some t => stripMarkersGo fuel t (qm + 1) pl
      | none =>
        if pl < 1 then
          match RemoveTrailingChar tok '+' with
          | some t => stripMarkersGo fuel t qm (pl + 1)
          | none => (tok, qm, pl)
        else (tok, qm, pl)
    else
      if pl < 1 then
        match RemoveTrailingChar tok '+' with
        | some t => stripMarkersGo fuel t qm (pl + 1)
        | none => (tok, qm, pl)
      else (tok, qm, pl)

/-- The marker loop entered with both counters at zero, as in the source;
fuel `4 = (3 - 0) + (1 - 0)` never runs out. -/
def stripMarkers (tok : List Char) : List Char × Nat × Nat :=
  stripMarkersGo 4 tok 0 0

/-- `CanonicalizeCursorWordAndSearchOptions`: empty cursor words are left
untouched (the caller's default-constructed options stand); otherwise one
leading double quote and all leading dashes are stripped, then the trailing
`?`/`+` markers are consumed and mapped to the cumulative search options. -/
def CanonicalizeCursorWordAndSearchOptions (cursor_word : List Char) :
    List Char × CompletionOptions :=
  if cursor_word.isEmpty then (cursor_word, {})
  else
    let t1 := if cursor_word.head? = some '"' then cursor_word.tail else cursor_word
    let t2 := t1.dropWhile (fun c => c = '-')
    let s := stripMarkers t2
    (s.1,
      { flag_name_substring_search := s.2.1 > 0
        flag_location_substring_search := s.2.1 > 1
        flag_description_substring_search := s.2.1 > 2
        return_all_matching_flags := s.2.2 > 0
        force_no_update := false })

/-- `std::string::find(t)` on `s`: index of the first occurrence of the
substring `t` in `s`, `none` standing for `npos`. -/
def findSub (s t : List Char) : Option Nat :=
  if t.isPrefixOf s then some 0
  else
    match s with
    | [] => none
    | _ :: s' => (findSub s' t).map (· + 1)

/-- `s` contains `t` as a substring (`find != npos`). -/
def containsSub (s t : List Char) : Bool := (findSub s t).isSome

/-- `DoesSingleFlagMatch`: prefix match on the name always counts; the
three substring matches (name, defining file, description) only when the
corresponding search option is enabled. -/
def DoesSingleFlagMatch (flag : CommandLineFlagInfo) (options : CompletionOptions)
    (match_token : List Char) : Bool :=
  let pos := findSub flag.name match_token
  if pos = some 0 then true
  else if options.flag_name_substring_search && pos.isSome then true
  else if options.flag_location_substring_search &&
      (findSub flag.filename match_token).isSome then true
  else if options.flag_description_substring_search &&
      (findSub flag.description match_token).isSome then true
  else false

/-- Character-by-character longest common leading run of two strings
(the `while`/`erase` shrink step of `FindMatchingFlags`). -/
def commonPfxChars : List Char → List Char → List Char
  | a :: as, b :: bs => if a = b then a :: commonPfxChars as bs else []
  | _, _ => []

/-- The running longest-common-prefix accumulation of `FindMatchingFlags`:
initialized to the first match's name; each later name shrinks it, and an
empty accumulator or an empty name clears it for good. -/
def computeLcp : List (List Char) → List Char
  | [] => []
  | n :: rest =>
    rest.foldl (fun acc nm => if acc.isEmpty || nm.isEmpty then [] else commonPfxChars acc nm) n

/-- `FindMatchingFlags`: the match set (in snapshot order, the iteration
order of the pointer-keyed `std::set`) together with the longest common
prefix of the matching names. -/
def FindMatchingFlags (all_flags : List CommandLineFlagInfo)
    (options : CompletionOptions) (match_token : List Char) :
    List CommandLineFlagInfo × List Char :=
  let all_matches := all_flags.filter (fun f => DoesSingleFlagMatch f options match_token)
  (all_matches, computeLcp (all_matches.map (·.name)))

/-- The seven ownership suffix patterns built by `PushNameWithSuffix` from
the program's short invocation name, in source order. -/
def suffixPatterns (progName : List Char) : List (List Char) :=
  ([".", "-main.", "_main.", "-test.", "_test.", "-unittest.", "_unittest."] :
      List String).map (fun suf => '/' :: (progName ++ suf.toList))

/-- `std::string::rfind(c)`: index of the last occurrence of character `c`. -/
def rfindChar (s : List Char) (c : Char) : Option Nat :=
  (s.reverse.findIdx? (fun d => d = c)).map (fun j => s.length - 1 - j)

/-- `TryFindModuleAndPackageDir`: first flag (in snapshot order) whose
defining path contains any of the suffix patterns wins; the module is that
path and the package dir is everything before its last path separator
(empty when there is none). -/
def TryFindModuleAndPackageDir : List CommandLineFlagInfo → List Char → Char →
    List Char × List Char
  | [], _, _ => ([], [])
  | f :: rest, progName, sep =>
    if (suffixPatterns progName).any (fun suf => (findSub f.filename suf).isSome) then
      (f.filename,
        f.filename.take (match rfindChar f.filename sep with | some p => p | none => 0))
    else TryFindModuleAndPackageDir rest progName sep

/-- `std::string::find(c, start)`: first index `≥ start` holding `c`. -/
def findCharFrom (s : List Char) (c : Char) (start : Nat) : Option Nat :=
  ((s.drop start).findIdx? (fun d => d = c)).map (· + start)

/-- Which relevance bucket a single matched flag lands in (`other` is the
implicit unclassified bucket). -/
inductive FlagCategory where
  | perfect
  | moduleMatch
  | packageMatch
  | subpackageMatch
  | other
deriving DecidableEq, Repr

/-- The per-flag branch chain of `CategorizeAllMatchingFlags`: `pos` is the
first occurrence of the package dir in the defining path, `slash` the first
path separator strictly past one character after that occurrence. -/
def classifyFlag (f : CommandLineFlagInfo) (search_token moduleFile package_dir : List Char)
    (sep : Char) : FlagCategory :=
  let pos := if package_dir.isEmpty then none else findSub f.filename package_dir
  let slash := match pos with
    | some p => findCharFrom f.filename sep (p + package_dir.length + 1)
    | none => none
  if f.name = search_token then .perfect
  else if moduleFile ≠ [] ∧ f.filename = moduleFile then .moduleMatch
  else if package_dir ≠ [] ∧ pos.isSome ∧ slash = none then .packageMatch
  else if package_dir ≠ [] ∧ pos.isSome ∧ slash ≠ none then .subpackageMatch
  else .other

/-- `struct NotableFlags`: the five named relevance buckets. -/
structure NotableFlags where
  perfect_match_flag : List CommandLineFlagInfo := []
  module_flags : List CommandLineFlagInfo := []
  package_flags : List CommandLineFlagInfo := []
  most_common_flags : List CommandLineFlagInfo := []
  subpackage_flags : List CommandLineFlagInfo := []
deriving DecidableEq, Repr

/-- `CategorizeAllMatchingFlags`: each match goes to the first bucket whose
branch fires; nothing ever inserts into `most_common_flags`. -/
def CategorizeAllMatchingFlags (all_matches : List CommandLineFlagInfo)
    (search_token moduleFile package_dir : List Char) (sep : Char) : NotableFlags :=
  { perfect_match_flag :=
      all_matches.filter (fun f => classifyFlag f search_token moduleFile package_dir sep = .perfect)
    module_flags :=
      all_matches.filter (fun f => classifyFlag f search_token moduleFile package_dir sep = .moduleMatch)
    package_flags :=
      all_matches.filter (fun f => classifyFlag f search_token moduleFile package_dir sep = .packageMatch)
    most_common_flags := []
    subpackage_flags :=
      all_matches.filter (fun f => classifyFlag f search_token moduleFile package_dir sep = .subpackageMatch) }

/-- `RetrieveUnusedFlags`: the matching flags appearing in none of the
notable buckets, in match-set order. -/
def RetrieveUnusedFlags (matching_flags : List CommandLineFlagInfo)
    (notable_flags : NotableFlags) : List CommandLineFlagInfo :=
  matching_flags.filter (fun f =>
    decide (f ∉ notable_flags.perfect_match_flag ∧ f ∉ notable_flags.module_flags ∧
      f ∉ notable_flags.package_flags ∧ f ∉ notable_flags.most_common_flags ∧
      f ∉ notable_flags.subpackage_flags))

/-- The single-quote character used around string-typed defaults
(written by code point to keep the sources free of quote literals). -/
def squote : Char := Char.ofNat 39

/-- The fixed prefix of a short-format line:
`<indent>--<name> [<default, quoted when the flag is a string>] `. -/
def shortLinePfx (line_indentation : List Char) (info : CommandLineFlagInfo) : List Char :=
  line_indentation ++ "--".toList ++ info.name ++ " [".toList ++
    (if info.type = "string".toList then [squote] else []) ++ info.default_value ++
    (if info.type = "string".toList then [squote] else []) ++ "] ".toList

/-- The `size_t` modulus: the count argument `remainder - 3` of
`std::string::substr` is an `int` converted to `size_t`. -/
def SIZE_T_MOD : Int := 2 ^ 64

/-- `GetShortFlagLine`: the short inline rendering; the description is
appended whole when it fits the remaining column budget, truncated to
`remainder - 3` characters (as converted to `size_t`) plus `"..."`
when it does not, and dropped entirely when no budget remains. -/
def GetShortFlagLine (line_indentation : List Char) (columns : Int)
    (info : CommandLineFlagInfo) : List Char :=
  let pfx := shortLinePfx line_indentation info
  let remainder : Int := columns - (pfx.length : Int)
  let suffix : List Char :=
    if remainder > 0 then
      if (info.description.length : Int) > remainder then
        info.description.take (((remainder - 3) % SIZE_T_MOD).toNat) ++ "...".toList
      else info.description
    else []
  pfx ++ suffix

/-- Modelled from the spec's words for claim C8 ("truncate it to
`remaining − 3` characters and append an ellipsis marker"), reading the
truncation count as a plain (non-negative) character count. Compared
against `GetShortFlagLine`, which is translated from the source. -/
def GetShortFlagLineSpec (line_indentation : List Char) (columns : Int)
    (info : CommandLineFlagInfo) : List Char :=
  let pfx := shortLinePfx line_indentation info
  let remainder : Int := columns - (pfx.length : Int)
  let suffix : List Char :=
    if remainder > 0 then
      if (info.description.length : Int) > remainder then
        info.description.take (remainder - 3).toNat ++ "...".toList
      else info.description
    else []
  pfx ++ suffix

/-- Group header and footer string constants from `FinalizeCompletionOutput`. -/
def ftrPerfect : List Char := "==========".toList

def hdrModule : List Char := "-* Matching module flags *-".toList

def ftrModule : List Char := "===========================".toList

def hdrPackage : List Char := "-* Matching package flags *-".toList

def ftrPackage : List Char := "============================".toList

def hdrCommon : List Char := "-* Commonly used flags *-".toList

def ftrCommon : List Char := "=========================".toList

def hdrSub : List Char := "-* Matching sub-package flags *-".toList

def ftrSub : List Char := "================================".toList

def hdrOther : List Char := "-* Other flags *-".toList

/-- The hidden-remaining sentinel line pushed when the budget cut
matches off. -/
def hiddenSentinel : List Char := "~ (Remaining flags hidden) ~".toList

/-- `struct DisplayInfoGroup`. -/
structure DisplayInfoGroup where
  header : List Char
  footer : List Char
  group : List CommandLineFlagInfo
deriving DecidableEq, Repr

/-- `DisplayInfoGroup::SizeInLines`: member count plus one, plus one for a
non-empty header and one for a non-empty footer. -/
def SizeInLines (g : DisplayInfoGroup) : Int :=
  ((g.group.length : Int) + 1) + (if g.header.length > 0 then 1 else 0) +
    (if g.footer.length > 0 then 1 else 0)

/-- One step of the group-selection pass: a group whose bucket satisfies
`cond` is planned only while the running declared size is still below the
budget, adding its declared size to the running total (the repeated
`if (lines_so_far < max_desired_lines && !bucket.empty())` block of
`FinalizeCompletionOutput`). -/
def considerGroup (st : List DisplayInfoGroup × Int) (mx : Int) (cond : Bool)
    (g : DisplayInfoGroup) : List DisplayInfoGroup × Int :=
  if st.2 < mx ∧ cond = true then (st.1 ++ [g], st.2 + SizeInLines g) else st

/-- The group-selection pass of `FinalizeCompletionOutput`: the perfect
match group is always planned (with no budget check); each further
non-empty bucket (module, package, most-common, sub-package, then the
leftover "other" flags) is planned only while the running declared size is
still below the budget. In the source the leftover flags are computed only
when budget remains and the emptiness test is nested inside the budget
test; `RetrieveUnusedFlags` is pure, so computing it unconditionally and
taking the conjunction is equivalent. Returns the planned groups and the
`perfect_match_found` boolean. -/
def selectOutputGroups (matching_flags : List CommandLineFlagInfo)
    (notable_flags : NotableFlags) (max_desired_lines : Int) :
    List DisplayInfoGroup × Bool :=
  let st1 : List DisplayInfoGroup × Int :=
    if notable_flags.perfect_match_flag.isEmpty then ([], 0)
    else ([⟨[], ftrPerfect, notable_flags.perfect_match_flag⟩],
      SizeInLines ⟨[], ftrPerfect, notable_flags.perfect_match_flag⟩)
  let st2 := considerGroup st1 max_desired_lines (decide (notable_flags.module_flags ≠ []))
    ⟨hdrModule, ftrModule, notable_flags.module_flags⟩
  let st3 := considerGroup st2 max_desired_lines (decide (notable_flags.package_flags ≠ []))
    ⟨hdrPackage, ftrPackage, notable_flags.package_flags⟩
  let st4 := considerGroup st3 max_desired_lines (decide (notable_flags.most_common_flags ≠ []))
    ⟨hdrCommon, ftrCommon, notable_flags.most_common_flags⟩
  let st5 := considerGroup st4 max_desired_lines (decide (notable_flags.subpackage_flags ≠ []))
    ⟨hdrSub, ftrSub, notable_flags.subpackage_flags⟩
  let st6 := considerGroup st5 max_desired_lines
    (decide (RetrieveUnusedFlags matching_flags notable_flags ≠ []))
    ⟨hdrOther, [], RetrieveUnusedFlags matching_flags notable_flags⟩
  (st6.1, !notable_flags.perfect_match_flag.isEmpty)

/-- The member-emission loop of `OutputSingleGroupWithLimit`: one rendered
line per flag while the shared line counter stays positive, decrementing
it per line and counting every emitted flag line. -/
def outputMembers (glp : List Char → CommandLineFlagInfo → List Char)
    (long : Bool) (ind : List Char) (cols : Int) :
    List CommandLineFlagInfo → Int → Nat → List (List Char) × Int × Nat
  | [], r, n => ([], r, n)
  | f :: fs, r, n =>
    if r > 0 then
      let line := if long then glp ind f else GetShortFlagLine ind cols f
      let rest := outputMembers glp long ind cols fs (r - 1) (n + 1)
      (line :: rest.1, rest.2)
    else ([], r, n)

/-- `OutputSingleGroupWithLimit`: an empty group emits nothing; a
non-empty header needs two remaining lines (header text plus a dash
underline of the header's length) or the whole group is abandoned; then
members are emitted while lines remain; a non-empty footer needs one
remaining line. Returns the emitted lines, the new remaining-line limit,
and the new emitted-flag-line count. -/
def OutputSingleGroupWithLimit (group : List CommandLineFlagInfo)
    (line_indentation header footer : List Char) (long_output_format : Bool)
    (cols : Int) (glp : List Char → CommandLineFlagInfo → List Char)
    (remaining_line_limit : Int) (n : Nat) : List (List Char) × Int × Nat :=
  let fin : List (List Char) → Int → Nat → List (List Char) × Int × Nat :=
    fun lines r' n' =>
      if footer.isEmpty then (lines, r', n')
      else if r' < 1 then (lines, r', n')
      else (lines ++ [line_indentation ++ footer], r' - 1, n')
  if group.isEmpty then ([], remaining_line_limit, n)
  else if header.isEmpty then
    let ms := outputMembers glp long_output_format line_indentation cols group
      remaining_line_limit n
    fin ms.1 ms.2.1 ms.2.2
  else if remaining_line_limit < 2 then ([], remaining_line_limit, n)
  else
    let hlines := [line_indentation ++ header,
      line_indentation ++ List.replicate header.length '-']
    let ms := outputMembers glp long_output_format line_indentation cols group
      (remaining_line_limit - 2) n
    fin (hlines ++ ms.1) ms.2.1 ms.2.2

/-- The emission loop of `FinalizeCompletionOutput`: groups in plan order,
indentation shrinking by one space per group, the long format used only
for the first group (and only when a perfect match was found), one shared
remaining-line counter threaded through. -/
def outputAllGroups (cols : Int) (glp : List Char → CommandLineFlagInfo → List Char) :
    List DisplayInfoGroup → Bool → Nat → Int → Nat → List (List Char) × Int × Nat
  | [], _, _, r, n => ([], r, n)
  | g :: gs, pmf, indent, r, n =>
    let o := OutputSingleGroupWithLimit g.group (List.replicate indent ' ')
      g.header g.footer pmf cols glp r n
    let rest := outputAllGroups cols glp gs false (indent - 1) o.2.1 o.2.2
    (o.1 ++ rest.1, rest.2)

/-- The line budget: effectively unbounded if every match was requested,
otherwise the fixed 98-line cap. -/
def maxDesiredLines (options : CompletionOptions) : Int :=
  if options.return_all_matching_flags then 999999 else 98

/-- `FinalizeCompletionOutput`: plan the groups, emit them under the
budget, then either append the hidden-remaining sentinel (when the member
lines emitted fall short of the match set) or record the
`force_no_update` verdict. -/
def FinalizeCompletionOutput (matching_flags : List CommandLineFlagInfo)
    (options : CompletionOptions) (notable_flags : NotableFlags) (cols : Int)
    (glp : List Char → CommandLineFlagInfo → List Char) :
    List (List Char) × CompletionOptions :=
  let max_desired_lines := maxDesiredLines options
  let sel := selectOutputGroups matching_flags notable_flags max_desired_lines
  let out := outputAllGroups cols glp sel.1 sel.2 (sel.1.length - 1) max_desired_lines 0
  if out.2.2 ≠ matching_flags.length then
    (out.1 ++ [hiddenSentinel], { options with force_no_update := false })
  else
    (out.1, { options with force_no_update := true })

/-- The number of flag lines emitted by the output pass (the
`completions_output` counter of `FinalizeCompletionOutput`). -/
def flagLinesEmitted (matching_flags : List CommandLineFlagInfo)
    (options : CompletionOptions) (notable_flags : NotableFlags) (cols : Int)
    (glp : List Char → CommandLineFlagInfo → List Char) : Nat :=
  let max_desired_lines := maxDesiredLines options
  let sel := selectOutputGroups matching_flags notable_flags max_desired_lines
  (outputAllGroups cols glp sel.1 sel.2 (sel.1.length - 1) max_desired_lines 0).2.2

/-- `PrintFlagCompletionInfo`: canonicalize, match, short-circuit on a
shared prefix longer than the token, stop on an empty match set, otherwise
categorize and emit, appending the stand-alone `~` marker when the
auto-update-suppression verdict is set. -/
def PrintFlagCompletionInfo (cursor_word : List Char)
    (all_flags : List CommandLineFlagInfo) (progName : List Char) (sep : Char)
    (cols : Int) (glp : List Char → CommandLineFlagInfo → List Char) :
    List (List Char) :=
  let co := CanonicalizeCursorWordAndSearchOptions cursor_word
  let fm := FindMatchingFlags all_flags co.2 co.1
  if fm.2.length > co.1.length then ['-' :: '-' :: fm.2]
  else if fm.1.isEmpty then []
  else
    let mp := TryFindModuleAndPackageDir all_flags progName sep
    let nf := CategorizeAllMatchingFlags fm.1 co.1 mp.1 mp.2 sep
    let fc := FinalizeCompletionOutput fm.1 co.2 nf cols glp
    if fc.2.force_no_update then fc.1 ++ [['~']] else fc.1

/-- `HandleCommandLineCompletions`: the exported entry point; an empty
cursor word is a hard no-op. -/
def HandleCommandLineCompletions (cursor_word : List Char)
    (all_flags : List CommandLineFlagInfo) (progName : List Char) (sep : Char)
    (cols : Int) (glp : List Char → CommandLineFlagInfo → List Char) :
    List (List Char) :=
  if cursor_word.isEmpty then []
  else PrintFlagCompletionInfo cursor_word all_flags progName sep cols glp

/-- Test fixture: an ordinary boolean flag named `help`. -/
def flagHelp : CommandLineFlagInfo :=
  ⟨"help".toList, "bool".toList, "show help".toList, "false".toList, "false".toList,
    "src/main.cc".toList⟩

/-- Test fixture: a flag whose name is exactly the two-letter token `he`. -/
def flagHe : CommandLineFlagInfo :=
  ⟨"he".toList, "bool".toList, "ab".toList, [], [], "p/q.cc".toList⟩

/-- Test fixture: a flag with a two-character description. -/
def flagAb : CommandLineFlagInfo :=
  ⟨"x".toList, "bool".toList, "ab".toList, [], [], "f.cc".toList⟩

/-- Test fixture: a flag with a 100-character description. -/
def flagLongDesc : CommandLineFlagInfo :=
  ⟨"x".toList, "bool".toList, List.replicate 100 'd', [], [], "f.cc".toList⟩

/-- Test fixture: a flag whose defining path ends in a path separator
immediately after the package-dir occurrence. -/
def flagPkgEdge : CommandLineFlagInfo :=
  ⟨"x".toList, "bool".toList, "ab".toList, [], [], "p/".toList⟩

/-- A concrete stand-in for the long-format renderer, used to observe
which renderer the output pass invokes. -/
def glpZ : List Char → CommandLineFlagInfo → List Char := fun _ _ => ['Z']

theorem stripMarkersGo_fuel_irrelevant :
    ∀ (fuel fuel' : Nat) (tok : List Char) (qm pl : Nat),
      (3 - qm) + (1 - pl) ≤ fuel → (3 - qm) + (1 - pl) ≤ fuel' →
      stripMarkersGo fuel tok qm pl = stripMarkersGo fuel' tok qm pl := by
  intro fuel
  induction fuel with
  | zero =>
    intro fuel' tok qm pl h h'
    have hq : ¬ qm < 3 := by omega
    have hp : ¬ pl < 1 := by omega
    cases fuel' with
    | zero => rfl
    | succ m => simp [stripMarkersGo, hq, hp]
  | succ m ih =>
    intro fuel' tok qm pl h h'
    cases fuel' with
    | zero =>
      have hq : ¬ qm < 3 := by omega
      have hp : ¬ pl < 1 := by omega
      simp [stripMarkersGo, hq, hp]
    | succ m' =>
      rw [stripMarkersGo, stripMarkersGo]
      by_cases hq : qm < 3
      · simp only [hq, if_true]
        cases hrm : RemoveTrailingChar tok '?' with
        | some t => exact ih m' t (qm + 1) pl (by omega) (by omega)
        | none =>
          by_cases hp : pl < 1
          · simp only [hp, if_true]
            cases hrp : RemoveTrailingChar tok '+' with
            | some t => exact ih m' t qm (pl + 1) (by omega) (by omega)
            | none => rfl
          · simp [hp]
      · simp only [hq, if_false]
        by_cases hp : pl < 1
        · simp only [hp, if_true]
          cases hrp : RemoveTrailingChar tok '+' with
          | some t => exact ih m' t qm (pl + 1) (by omega) (by omega)
          | none => rfl
        · simp [hp]

theorem findSub_nil_token (s : List Char) : findSub s [] = some 0 := by
  cases s <;> simp [findSub, List.isPrefixOf]

theorem findSub_zero_iff (s t : List Char) : findSub s t = some 0 ↔ t.isPrefixOf s = true := by
  cases s with
  | nil =>
    by_cases h : t.isPrefixOf ([] : List Char) = true <;> simp [findSub, h]
  | cons a s' =>
    by_cases h : t.isPrefixOf (a :: s') = true
    · simp [findSub, h]
    · rw [findSub]
      rw [if_neg h]
      cases ho : findSub s' t with
      | none => simp [h]
      | some x => simp [h, Nat.succ_ne_zero]

theorem DoesSingleFlagMatch_true_iff (flag : CommandLineFlagInfo)
    (options : CompletionOptions) (tok : List Char) :
    DoesSingleFlagMatch flag options tok = true ↔
      (tok.isPrefixOf flag.name = true ∨
       (options.flag_name_substring_search = true ∧ containsSub flag.name tok = true) ∨
       (options.flag_location_substring_search = true ∧ containsSub flag.filename tok = true) ∨
       (options.flag_description_substring_search = true ∧
         containsSub flag.description tok = true)) := by
  rw [DoesSingleFlagMatch]
  simp only [containsSub, ← findSub_zero_iff]
  split_ifs with h1 h2 h3 h4 <;>
    simp_all [Bool.and_eq_true, Option.isSome_iff_exists]

theorem mem_FindMatchingFlags_iff (all_flags : List CommandLineFlagInfo)
    (options : CompletionOptions) (tok : List Char) (f : CommandLineFlagInfo) :
    f ∈ (FindMatchingFlags all_flags options tok).1 ↔
      f ∈ all_flags ∧ DoesSingleFlagMatch f options tok = true := by
  simp [FindMatchingFlags, List.mem_filter]

/-- C1: every flag placed in the match set either has a name starting with
the canonical token, or the name-substring modifier is set and its name
contains the token, or the location-substring modifier is set and its
defining path contains the token, or the description-substring modifier is
set and its description contains the token; a flag satisfying none of
these is never matched. -/
theorem claim_C1_match_predicate (all_flags : List CommandLineFlagInfo)
    (options : CompletionOptions) (tok : List Char) (f : CommandLineFlagInfo)
    (hf : f ∈ (FindMatchingFlags all_flags options tok).1) :
    tok.isPrefixOf f.name = true ∨
      (options.flag_name_substring_search = true ∧ containsSub f.name tok = true) ∨
      (options.flag_location_substring_search = true ∧ containsSub f.filename tok = true) ∨
      (options.flag_description_substring_search = true ∧
        containsSub f.description tok = true) :=
  (DoesSingleFlagMatch_true_iff f options tok).mp
    ((mem_FindMatchingFlags_iff all_flags options tok f).mp hf).2

/-- Witness for C1 at a concrete input. -/
theorem claim_C1_match_predicate_witness :
    flagHelp ∈ (FindMatchingFlags [flagHelp] {} ['h', 'e']).1 ∧
      (['h', 'e'].isPrefixOf flagHelp.name = true ∨
        (CompletionOptions.flag_name_substring_search {} = true ∧
          containsSub flagHelp.name ['h', 'e'] = true) ∨
        (CompletionOptions.flag_location_substring_search {} = true ∧
          containsSub flagHelp.filename ['h', 'e'] = true) ∨
        (CompletionOptions.flag_description_substring_search {} = true ∧
          containsSub flagHelp.description ['h', 'e'] = true)) :=
  ⟨by decide, claim_C1_match_predicate [flagHelp] {} ['h', 'e'] flagHelp (by decide)⟩

/-- C2: when the computed shared prefix over all matching names is
strictly longer than the canonical token, the pipeline's entire output is
exactly one artifact, the literal `--` followed by that prefix. -/
theorem claim_C2_shared_prefix_shortcut (cursor_word : List Char)
    (all_flags : List CommandLineFlagInfo) (progName : List Char) (sep : Char)
    (cols : Int) (glp : List Char → CommandLineFlagInfo → List Char)
    (hne : cursor_word ≠ [])
    (hlen : (FindMatchingFlags all_flags
        (CanonicalizeCursorWordAndSearchOptions cursor_word).2
        (CanonicalizeCursorWordAndSearchOptions cursor_word).1).2.length >
      (CanonicalizeCursorWordAndSearchOptions cursor_word).1.length) :
    HandleCommandLineCompletions cursor_word all_flags progName sep cols glp =
      ['-' :: '-' :: (FindMatchingFlags all_flags
        (CanonicalizeCursorWordAndSearchOptions cursor_word).2
        (CanonicalizeCursorWordAndSearchOptions cursor_word).1).2] := by
  rw [HandleCommandLineCompletions, if_neg (by simpa using hne), PrintFlagCompletionInfo]
  simp only []
  rw [if_pos hlen]

/-- Witness for C2 at a concrete input: token `he`, single flag `help`,
shared prefix `help` strictly longer than the token. -/
theorem claim_C2_shared_prefix_shortcut_witness :
    "he".toList ≠ [] ∧
      (FindMatchingFlags [flagHelp]
          (CanonicalizeCursorWordAndSearchOptions "he".toList).2
          (CanonicalizeCursorWordAndSearchOptions "he".toList).1).2.length >
        (CanonicalizeCursorWordAndSearchOptions "he".toList).1.length ∧
      HandleCommandLineCompletions "he".toList [flagHelp] "prog".toList '/' 80 glpZ =
        ['-' :: '-' :: (FindMatchingFlags [flagHelp]
          (CanonicalizeCursorWordAndSearchOptions "he".toList).2
          (CanonicalizeCursorWordAndSearchOptions "he".toList).1).2] :=
  ⟨by decide, by decide,
    claim_C2_shared_prefix_shortcut "he".toList [flagHelp] "prog".toList '/' 80 glpZ
      (by decide) (by decide)⟩

/-- C5: an empty raw cursor token makes the whole pipeline emit nothing,
and an empty match set makes the pipeline emit nothing; both are defined
no-ops. -/
theorem claim_C5_empty_noops (all_flags : List CommandLineFlagInfo)
    (progName : List Char) (sep : Char) (cols : Int)
    (glp : List Char → CommandLineFlagInfo → List Char) :
    (∀ flags2 : List CommandLineFlagInfo,
        HandleCommandLineCompletions [] flags2 progName sep cols glp = []) ∧
      (∀ cursor_word : List Char,
        (FindMatchingFlags all_flags
            (CanonicalizeCursorWordAndSearchOptions cursor_word).2
            (CanonicalizeCursorWordAndSearchOptions cursor_word).1).1 = [] →
          PrintFlagCompletionInfo cursor_word all_flags progName sep cols glp = []) := by
  constructor
  · intro flags2
    rw [HandleCommandLineCompletions]
    simp
  · intro cw h
    rw [PrintFlagCompletionInfo]
    simp only [FindMatchingFlags] at h ⊢
    rw [h]
    simp [computeLcp]

/-- Witness for C5 at a concrete input: non-empty token, empty registry,
hence empty match set and empty output. -/
theorem claim_C5_empty_noops_witness :
    (FindMatchingFlags []
        (CanonicalizeCursorWordAndSearchOptions "zz".toList).2
        (CanonicalizeCursorWordAndSearchOptions "zz".toList).1).1 = [] ∧
      PrintFlagCompletionInfo "zz".toList [] "prog".toList '/' 80 glpZ = [] :=
  ⟨by decide,
    (claim_C5_empty_noops [] "prog".toList '/' 80 glpZ).2 "zz".toList (by decide)⟩

theorem dropWhile_replicate_dash (k : Nat) :
    (List.replicate k '-').dropWhile (fun c => c = '-') = [] := by
  induction k with
  | zero => rfl
  | succ n ih => rw [List.replicate_succ, List.dropWhile_cons]; simp [ih]

/-- C10: a non-empty raw cursor word consisting of an optional leading
quote followed only by dashes canonicalizes to the empty token, the match
predicate then accepts every flag (an empty token is a prefix of every
name), and the match set is the entire registry. -/
theorem claim_C10_dashes_match_all (k : Nat) (q : List Char)
    (hq : q = [] ∨ q = ['"']) (flags : List CommandLineFlagInfo)
    (hne : q ++ List.replicate k '-' ≠ []) :
    (CanonicalizeCursorWordAndSearchOptions (q ++ List.replicate k '-')).1 = [] ∧
      (∀ f : CommandLineFlagInfo,
        DoesSingleFlagMatch f
          (CanonicalizeCursorWordAndSearchOptions (q ++ List.replicate k '-')).2 [] = true) ∧
      (FindMatchingFlags flags
          (CanonicalizeCursorWordAndSearchOptions (q ++ List.replicate k '-')).2
          (CanonicalizeCursorWordAndSearchOptions (q ++ List.replicate k '-')).1).1 = flags := by
  have hmatch : ∀ (o : CompletionOptions) (f : CommandLineFlagInfo),
      DoesSingleFlagMatch f o [] = true := by
    intro o f
    rw [DoesSingleFlagMatch]
    simp [findSub_nil_token]
  have hcanon : (CanonicalizeCursorWordAndSearchOptions (q ++ List.replicate k '-')).1 = [] := by
    rcases hq with hq | hq <;> subst hq
    · cases k with
      | zero => exact absurd rfl hne
      | succ m =>
        rw [CanonicalizeCursorWordAndSearchOptions]
        rw [if_neg (by simpa using hne)]
        simp only [List.nil_append, List.replicate_succ, List.head?_cons]
        rw [if_neg (by decide)]
        rw [← List.replicate_succ, dropWhile_replicate_dash]
        rfl
    · rw [CanonicalizeCursorWordAndSearchOptions]
      rw [if_neg (by simpa using hne)]
      simp only [List.cons_append, List.nil_append, List.head?_cons, List.tail_cons]
      rw [if_pos trivial]
      rw [dropWhile_replicate_dash]
      rfl
  refine ⟨hcanon, fun f => hmatch _ f, ?_⟩
  rw [hcanon, FindMatchingFlags]
  simp only []
  exact List.filter_eq_self.mpr (fun f _ => hmatch _ f)

/-- Witness for C10 at the concrete cursor word `--`. -/
theorem claim_C10_dashes_match_all_witness :
    ([] : List Char) ++ List.replicate 2 '-' ≠ [] ∧
      (CanonicalizeCursorWordAndSearchOptions
          (([] : List Char) ++ List.replicate 2 '-')).1 = [] ∧
      (FindMatchingFlags [flagHelp, flagHe]
          (CanonicalizeCursorWordAndSearchOptions (([] : List Char) ++ List.replicate 2 '-')).2
          (CanonicalizeCursorWordAndSearchOptions (([] : List Char) ++ List.replicate 2 '-')).1).1 =
        [flagHelp, flagHe] :=
  ⟨by decide,
    (claim_C10_dashes_match_all 2 [] (Or.inl rfl) [flagHelp, flagHe] (by decide)).1,
    (claim_C10_dashes_match_all 2 [] (Or.inl rfl) [flagHelp, flagHe] (by decide)).2.2⟩

/-- C4: the five named buckets plus the implicit other bucket partition
the match set (every matched flag lands in exactly one), and the
most-common bucket is always empty. -/
theorem claim_C4_partition (all_matches : List CommandLineFlagInfo)
    (tok mod pkg : List Char) (sep : Char)
    (nf : NotableFlags) (hnf : nf = CategorizeAllMatchingFlags all_matches tok mod pkg sep)
    (oth : List CommandLineFlagInfo) (hoth : oth = RetrieveUnusedFlags all_matches nf)
    (f : CommandLineFlagInfo) :
    (f ∈ all_matches ↔
      (f ∈ nf.perfect_match_flag ∨ f ∈ nf.module_flags ∨ f ∈ nf.package_flags ∨
        f ∈ nf.most_common_flags ∨ f ∈ nf.subpackage_flags ∨ f ∈ oth)) ∧
    (f ∈ nf.perfect_match_flag →
      ¬(f ∈ nf.module_flags ∨ f ∈ nf.package_flags ∨ f ∈ nf.most_common_flags ∨
        f ∈ nf.subpackage_flags ∨ f ∈ oth)) ∧
    (f ∈ nf.module_flags →
      ¬(f ∈ nf.perfect_match_flag ∨ f ∈ nf.package_flags ∨ f ∈ nf.most_common_flags ∨
        f ∈ nf.subpackage_flags ∨ f ∈ oth)) ∧
    (f ∈ nf.package_flags →
      ¬(f ∈ nf.perfect_match_flag ∨ f ∈ nf.module_flags ∨ f ∈ nf.most_common_flags ∨
        f ∈ nf.subpackage_flags ∨ f ∈ oth)) ∧
    (f ∈ nf.subpackage_flags →
      ¬(f ∈ nf.perfect_match_flag ∨ f ∈ nf.module_flags ∨ f ∈ nf.package_flags ∨
        f ∈ nf.most_common_flags ∨ f ∈ oth)) ∧
    (f ∈ oth →
      ¬(f ∈ nf.perfect_match_flag ∨ f ∈ nf.module_flags ∨ f ∈ nf.package_flags ∨
        f ∈ nf.most_common_flags ∨ f ∈ nf.subpackage_flags)) ∧
    nf.most_common_flags = [] := by
  subst hnf
  subst hoth
  have hP : ∀ g : CommandLineFlagInfo,
      g ∈ (CategorizeAllMatchingFlags all_matches tok mod pkg sep).perfect_match_flag ↔
        g ∈ all_matches ∧ classifyFlag g tok mod pkg sep = .perfect := by
    intro g; simp [CategorizeAllMatchingFlags, List.mem_filter]
  have hM : ∀ g : CommandLineFlagInfo,
      g ∈ (CategorizeAllMatchingFlags all_matches tok mod pkg sep).module_flags ↔
        g ∈ all_matches ∧ classifyFlag g tok mod pkg sep = .moduleMatch := by
    intro g; simp [CategorizeAllMatchingFlags, List.mem_filter]
  have hK : ∀ g : CommandLineFlagInfo,
      g ∈ (CategorizeAllMatchingFlags all_matches tok mod pkg sep).package_flags ↔
        g ∈ all_matches ∧ classifyFlag g tok mod pkg sep = .packageMatch := by
    intro g; simp [CategorizeAllMatchingFlags, List.mem_filter]
  have hS : ∀ g : CommandLineFlagInfo,
      g ∈ (CategorizeAllMatchingFlags all_matches tok mod pkg sep).subpackage_flags ↔
        g ∈ all_matches ∧ classifyFlag g tok mod pkg sep = .subpackageMatch := by
    intro g; simp [CategorizeAllMatchingFlags, List.mem_filter]
  have hMC : (CategorizeAllMatchingFlags all_matches tok mod pkg sep).most_common_flags = [] :=
    rfl
  have hO : ∀ g : CommandLineFlagInfo,
      g ∈ RetrieveUnusedFlags all_matches (CategorizeAllMatchingFlags all_matches tok mod pkg sep) ↔
        g ∈ all_matches ∧
          (g ∉ (CategorizeAllMatchingFlags all_matches tok mod pkg sep).perfect_match_flag ∧
           g ∉ (CategorizeAllMatchingFlags all_matches tok mod pkg sep).module_flags ∧
           g ∉ (CategorizeAllMatchingFlags all_matches tok mod pkg sep).package_flags ∧
           g ∉ (CategorizeAllMatchingFlags all_matches tok mod pkg sep).most_common_flags ∧
           g ∉ (CategorizeAllMatchingFlags all_matches tok mod pkg sep).subpackage_flags) := by
    intro g; rw [RetrieveUnusedFlags, List.mem_filter]; simp
  rcases hc : classifyFlag f tok mod pkg sep <;>
    by_cases hf : f ∈ all_matches <;>
      simp_all [hP, hM, hK, hS, hO, hMC]

/-- Witness for C4 at a concrete input. -/
theorem claim_C4_partition_witness :
    (CategorizeAllMatchingFlags [flagHe] "he".toList [] [] '/').most_common_flags = [] ∧
      (flagHe ∈ [flagHe] ↔
        (flagHe ∈ (CategorizeAllMatchingFlags [flagHe] "he".toList [] [] '/').perfect_match_flag ∨
         flagHe ∈ (CategorizeAllMatchingFlags [flagHe] "he".toList [] [] '/').module_flags ∨
         flagHe ∈ (CategorizeAllMatchingFlags [flagHe] "he".toList [] [] '/').package_flags ∨
         flagHe ∈ (CategorizeAllMatchingFlags [flagHe] "he".toList [] [] '/').most_common_flags ∨
         flagHe ∈ (CategorizeAllMatchingFlags [flagHe] "he".toList [] [] '/').subpackage_flags ∨
         flagHe ∈ RetrieveUnusedFlags [flagHe]
           (CategorizeAllMatchingFlags [flagHe] "he".toList [] [] '/'))) :=
  ⟨(claim_C4_partition [flagHe] "he".toList [] [] '/' _ rfl _ rfl flagHe).2.2.2.2.2.2,
    (claim_C4_partition [flagHe] "he".toList [] [] '/' _ rfl _ rfl flagHe).1⟩

/-- C6 counterexample: `flagPkgEdge` has a path separator in its defining
path immediately after the package-dir occurrence (`p/`, separator at
index `1 = pos + packageDir.length`), so under the claim's reading a
further separator exists after the occurrence and the flag should be a
subpackage match; the code classifies it as a package match because its
separator search starts only at `pos + packageDir.length + 1`. -/
theorem claim_C6_cex :
    (CategorizeAllMatchingFlags [flagPkgEdge] "t".toList "m".toList "p".toList
      '/').package_flags = [flagPkgEdge] ∧
    (CategorizeAllMatchingFlags [flagPkgEdge] "t".toList "m".toList "p".toList
      '/').subpackage_flags = [] ∧
    flagPkgEdge.name ≠ "t".toList ∧
    flagPkgEdge.filename ≠ "m".toList ∧
    findSub flagPkgEdge.filename "p".toList = some 0 ∧
    flagPkgEdge.filename.get? (0 + ("p".toList).length) = some '/' := by
  decide

/-- C6 amended: for a matched flag that is neither a perfect nor a module
match, with a non-empty packageDir occurring in the defining path at
position `p`, the flag is classified `package` exactly when no
path-separator occurs at an index `≥ p + packageDir.length + 1` (one
character past the end of the occurrence, so a separator immediately
following packageDir does not count), and `subpackage` exactly when such
a separator exists. -/
theorem claim_C6_amended (f : CommandLineFlagInfo) (tok mod pkg : List Char)
    (sep : Char) (p : Nat)
    (hpkg : pkg ≠ [])
    (hpos : findSub f.filename pkg = some p)
    (hname : f.name ≠ tok)
    (hmod : ¬(mod ≠ [] ∧ f.filename = mod)) :
    (classifyFlag f tok mod pkg sep = .packageMatch ↔
      findCharFrom f.filename sep (p + pkg.length + 1) = none) ∧
    (classifyFlag f tok mod pkg sep = .subpackageMatch ↔
      findCharFrom f.filename sep (p + pkg.length + 1) ≠ none) := by
  have hne : pkg.isEmpty = false := by simpa using hpkg
  rcases hslash : findCharFrom f.filename sep (p + pkg.length + 1) with _ | q <;>
    simp [classifyFlag, hne, hpos, hslash, hpkg, hname, hmod]

/-- Witness for C6 amended at a concrete input: package dir `p`, defining
path `p/q.cc`, no separator past index 2, hence a package match. -/
theorem claim_C6_amended_witness :
    "p".toList ≠ [] ∧ findSub flagHe.filename "p".toList = some 0 ∧
      (classifyFlag flagHe "t".toList "m".toList "p".toList '/' = .packageMatch ↔
        findCharFrom flagHe.filename '/' (0 + ("p".toList).length + 1) = none) :=
  ⟨by decide, by decide,
    (claim_C6_amended flagHe "t".toList "m".toList "p".toList '/' 0 (by decide) (by decide)
      (by decide) (by decide)).1⟩

/-- C8 counterexample: with a remaining column budget of 1 and a
two-character description, the source computes `substr(0, remainder - 3)`
whose count argument underflows on conversion to `size_t`, so the whole
description survives before the ellipsis; the claim's truncation to
`remainder - 3` characters (an empty string for a negative count) gives a
different line. -/
theorem claim_C8_cex :
    GetShortFlagLine [] 8 flagAb ≠ GetShortFlagLineSpec [] 8 flagAb ∧
      (0:Int) < 8 - ((shortLinePfx [] flagAb).length : Int) ∧
      8 - ((shortLinePfx [] flagAb).length : Int) < (flagAb.description.length : Int) := by
  decide

/-- C8 amended: with remaining budget `r = columns - prefix length`: a
non-positive `r` omits the description; a description fitting `r` is
appended verbatim; with `3 ≤ r` (and `r` in the `int32` range of the
columns flag) an over-long description is truncated to `r - 3` characters
plus an ellipsis; with `r` equal to 1 or 2 the `substr` count underflows
as a `size_t`, so an over-long description is appended in full, plus the
ellipsis. -/
theorem claim_C8_amended (ind : List Char) (cols : Int) (f : CommandLineFlagInfo) :
    (cols - ((shortLinePfx ind f).length : Int) ≤ 0 →
      GetShortFlagLine ind cols f = shortLinePfx ind f) ∧
    (0 < cols - ((shortLinePfx ind f).length : Int) →
      (f.description.length : Int) ≤ cols - ((shortLinePfx ind f).length : Int) →
      GetShortFlagLine ind cols f = shortLinePfx ind f ++ f.description) ∧
    (3 ≤ cols - ((shortLinePfx ind f).length : Int) →
      cols - ((shortLinePfx ind f).length : Int) ≤ 2 ^ 31 →
      cols - ((shortLinePfx ind f).length : Int) < (f.description.length : Int) →
      GetShortFlagLine ind cols f = shortLinePfx ind f ++
        (f.description.take (cols - ((shortLinePfx ind f).length : Int) - 3).toNat ++
          "...".toList)) ∧
    (0 < cols - ((shortLinePfx ind f).length : Int) →
      cols - ((shortLinePfx ind f).length : Int) < 3 →
      cols - ((shortLinePfx ind f).length : Int) < (f.description.length : Int) →
      (f.description.length : Int) ≤ 2 ^ 64 - 2 →
      GetShortFlagLine ind cols f = shortLinePfx ind f ++
        (f.description ++ "...".toList)) := by
  have hpow64 : (2:Int) ^ 64 = 18446744073709551616 := by norm_num
  have hpow31 : (2:Int) ^ 31 = 2147483648 := by norm_num
  have hsz : SIZE_T_MOD = 18446744073709551616 := by norm_num [SIZE_T_MOD]
  refine ⟨?_, ?_, ?_, ?_⟩
  · intro h
    rw [GetShortFlagLine]
    have hc : ¬(cols - ((shortLinePfx ind f).length : Int) > 0) := by omega
    rw [if_neg hc]
    simp
  · intro h1 h2
    rw [GetShortFlagLine]
    have hc : cols - ((shortLinePfx ind f).length : Int) > 0 := by omega
    have hc2 : ¬((f.description.length : Int) >
        cols - ((shortLinePfx ind f).length : Int)) := by omega
    rw [if_pos hc, if_neg hc2]
  · intro h1 h2 h3
    rw [hpow31] at h2
    rw [GetShortFlagLine]
    have hc : cols - ((shortLinePfx ind f).length : Int) > 0 := by omega
    have hc2 : (f.description.length : Int) >
        cols - ((shortLinePfx ind f).length : Int) := by omega
    rw [if_pos hc, if_pos hc2]
    have hmod : (cols - ((shortLinePfx ind f).length : Int) - 3) % SIZE_T_MOD =
        cols - ((shortLinePfx ind f).length : Int) - 3 := by
      rw [hsz]
      omega
    rw [hmod]
  · intro h1 h2 h3 h4
    rw [hpow64] at h4
    rw [GetShortFlagLine]
    have hc : cols - ((shortLinePfx ind f).length : Int) > 0 := by omega
    have hc2 : (f.description.length : Int) >
        cols - ((shortLinePfx ind f).length : Int) := by omega
    rw [if_pos hc, if_pos hc2]
    have hmod : (cols - ((shortLinePfx ind f).length : Int) - 3) % SIZE_T_MOD =
        cols - ((shortLinePfx ind f).length : Int) - 3 + SIZE_T_MOD := by
      rw [hsz]
      omega
    rw [hmod]
    have htake : f.description.take
        ((cols - ((shortLinePfx ind f).length : Int) - 3 + SIZE_T_MOD)).toNat =
        f.description := by
      apply List.take_of_length_le
      rw [hsz]
      omega
    rw [htake]

/-- Witness for C8 amended at a concrete input: 80 columns, prefix length
7, 100-character description truncated to 70 characters plus ellipsis. -/
theorem claim_C8_amended_witness :
    3 ≤ (80:Int) - ((shortLinePfx [] flagLongDesc).length : Int) ∧
      (80:Int) - ((shortLinePfx [] flagLongDesc).length : Int) ≤ 2 ^ 31 ∧
      (80:Int) - ((shortLinePfx [] flagLongDesc).length : Int) <
        (flagLongDesc.description.length : Int) ∧
      GetShortFlagLine [] 80 flagLongDesc = shortLinePfx [] flagLongDesc ++
        (flagLongDesc.description.take
            ((80:Int) - ((shortLinePfx [] flagLongDesc).length : Int) - 3).toNat ++
          "...".toList) :=
  ⟨by decide, by decide, by decide,
    (claim_C8_amended [] 80 flagLongDesc).2.2.1 (by decide) (by decide) (by decide)⟩

theorem outputMembers_spec (glp : List Char → CommandLineFlagInfo → List Char)
    (long : Bool) (ind : List Char) (cols : Int) :
    ∀ (g : List CommandLineFlagInfo) (r : Int) (n : Nat),
      (outputMembers glp long ind cols g r n).1.length = min g.length r.toNat ∧
      (outputMembers glp long ind cols g r n).2.1 = r - min g.length r.toNat ∧
      (outputMembers glp long ind cols g r n).2.2 = n + min g.length r.toNat := by
  intro g
  induction g with
  | nil => intro r n; simp [outputMembers]
  | cons f fs ih =>
    intro r n
    rw [outputMembers]
    by_cases hr : r > 0
    · rw [if_pos hr]
      obtain ⟨ih1, ih2, ih3⟩ := ih (r - 1) (n + 1)
      refine ⟨?_, ?_, ?_⟩ <;> simp only [List.length_cons, ih1, ih2, ih3] <;> omega
    · rw [if_neg hr]
      have h0 : r.toNat = 0 := by omega
      simp [h0]

theorem outputMembers_lines (glp : List Char → CommandLineFlagInfo → List Char)
    (long : Bool) (ind : List Char) (cols : Int) :
    ∀ (g : List CommandLineFlagInfo) (r : Int) (n : Nat) (l : List Char),
      l ∈ (outputMembers glp long ind cols g r n).1 →
      ∃ f ∈ g, l = if long then glp ind f else GetShortFlagLine ind cols f := by
  intro g
  induction g with
  | nil => intro r n l hl; simp [outputMembers] at hl
  | cons f fs ih =>
    intro r n l hl
    rw [outputMembers] at hl
    by_cases hr : r > 0
    · rw [if_pos hr] at hl
      simp only [List.mem_cons] at hl
      rcases hl with rfl | hl
      · exact ⟨f, List.mem_cons_self f fs, rfl⟩
      · obtain ⟨f', hf', he⟩ := ih (r - 1) (n + 1) l hl
        exact ⟨f', List.mem_cons_of_mem f hf', he⟩
    · rw [if_neg hr] at hl
      simp at hl

theorem shortLinePfx_shape (ind : List Char) (f : CommandLineFlagInfo) :
    ∃ b : List Char, shortLinePfx ind f = ind ++ '-' :: '-' :: b := by
  refine ⟨f.name ++ " [".toList ++
    (if f.type = "string".toList then [squote] else []) ++ f.default_value ++
    (if f.type = "string".toList then [squote] else []) ++ "] ".toList, ?_⟩
  rw [shortLinePfx]
  have h2 : "--".toList = ['-', '-'] := rfl
  rw [h2]
  simp [List.append_assoc]

theorem GetShortFlagLine_shape (ind : List Char) (cols : Int) (f : CommandLineFlagInfo) :
    ∃ b : List Char, GetShortFlagLine ind cols f = ind ++ '-' :: '-' :: b := by
  have key : ∀ suf : List Char, ∃ b' : List Char,
      shortLinePfx ind f ++ suf = ind ++ '-' :: '-' :: b' := by
    intro suf
    obtain ⟨b, hb⟩ := shortLinePfx_shape ind f
    refine ⟨b ++ suf, ?_⟩
    rw [hb]
    simp [List.append_assoc]
  rw [GetShortFlagLine]
  exact key _

theorem not_sentinel_of_indented (ind x : List Char) (c : Char)
    (hind : ∀ d ∈ ind, d = ' ') (hx : x.head? = some c) (hc : c ≠ '~') :
    ind ++ x ≠ hiddenSentinel := by
  intro he
  have hsent : hiddenSentinel.head? = some '~' := by decide
  cases ind with
  | nil =>
    rw [List.nil_append] at he
    rw [he, hsent] at hx
    exact hc (by injection hx with h; exact h.symm)
  | cons d ds =>
    have hd : d = ' ' := hind d (List.mem_cons_self d ds)
    have : (d :: (ds ++ x)).head? = some '~' := by rw [← List.cons_append, he, hsent]
    simp only [List.head?_cons] at this
    injection this with h
    subst hd
    exact absurd h (by decide)

theorem OutputSingleGroupWithLimit_budget (group : List CommandLineFlagInfo)
    (ind hdr ftr : List Char) (long : Bool) (cols : Int)
    (glp : List Char → CommandLineFlagInfo → List Char) (r : Int) (n : Nat)
    (hr : 0 ≤ r) :
    0 ≤ (OutputSingleGroupWithLimit group ind hdr ftr long cols glp r n).2.1 ∧
    ((OutputSingleGroupWithLimit group ind hdr ftr long cols glp r n).2.2 : Int) - (n : Int) ≤
      r - (OutputSingleGroupWithLimit group ind hdr ftr long cols glp r n).2.1 := by
  obtain ⟨a1, a2, a3⟩ := outputMembers_spec glp long ind cols group r n
  obtain ⟨b1, b2, b3⟩ := outputMembers_spec glp long ind cols group (r - 2) n
  rw [OutputSingleGroupWithLimit]
  simp only []
  split_ifs <;> simp_all <;> omega

theorem OutputSingleGroupWithLimit_lines_cases (group : List CommandLineFlagInfo)
    (ind hdr ftr : List Char) (long : Bool) (cols : Int)
    (glp : List Char → CommandLineFlagInfo → List Char) (r : Int) (n : Nat) :
    ∀ l ∈ (OutputSingleGroupWithLimit group ind hdr ftr long cols glp r n).1,
      l = ind ++ hdr ∨ l = ind ++ List.replicate hdr.length '-' ∨ l = ind ++ ftr ∨
        (∃ f ∈ group, l = if long then glp ind f else GetShortFlagLine ind cols f) := by
  intro l hl
  have hm := outputMembers_lines glp long ind cols group r n l
  have hm2 := outputMembers_lines glp long ind cols group (r - 2) n l
  rw [OutputSingleGroupWithLimit] at hl
  simp only [] at hl
  split_ifs at hl <;>
    simp only [List.mem_append, List.mem_cons, List.not_mem_nil, List.mem_singleton,
      or_false, false_or] at hl <;>
    tauto

theorem replicate_dash_head (m : Nat) (hm : m ≠ 0) :
    (List.replicate m '-').head? = some '-' := by
  cases m with
  | zero => exact absurd rfl hm
  | succ k => rw [List.replicate_succ]; rfl

theorem OutputSingleGroupWithLimit_no_sentinel (group : List CommandLineFlagInfo)
    (k : Nat) (hdr ftr : List Char) (long : Bool) (cols : Int)
    (glp : List Char → CommandLineFlagInfo → List Char) (r : Int) (n : Nat)
    (hh : hdr = [] ∨ hdr.head? = some '-')
    (hf : ftr = [] ∨ ftr.head? = some '=')
    (hglp : ∀ ind f, glp ind f ≠ hiddenSentinel) :
    hiddenSentinel ∉
      (OutputSingleGroupWithLimit group (List.replicate k ' ') hdr ftr long cols glp r n).1 := by
  intro hl
  have hind : ∀ d ∈ List.replicate k ' ', d = ' ' := fun d hd => List.eq_of_mem_replicate hd
  have hrep : ∀ j : Nat, hiddenSentinel ≠ List.replicate j ' ' := by
    intro j hj
    have hs : hiddenSentinel.head? = some '~' := by decide
    have hh2 := congrArg List.head? hj
    rw [hs] at hh2
    cases j with
    | zero => simp at hh2
    | succ m =>
      rw [List.replicate_succ, List.head?_cons] at hh2
      injection hh2 with h
      exact absurd h (by decide)
  rcases OutputSingleGroupWithLimit_lines_cases group (List.replicate k ' ') hdr ftr long cols
      glp r n hiddenSentinel hl with hc | hc | hc | ⟨f, -, hc⟩
  · rcases hh with rfl | hh
    · rw [List.append_nil] at hc
      exact hrep k hc
    · exact not_sentinel_of_indented _ _ '-' hind hh (by decide) hc.symm
  · by_cases hm : hdr.length = 0
    · rw [hm] at hc
      simp only [List.replicate_zero, List.append_nil] at hc
      exact hrep k hc
    · exact not_sentinel_of_indented _ _ '-' hind (replicate_dash_head hdr.length hm)
        (by decide) hc.symm
  · rcases hf with rfl | hf
    · rw [List.append_nil] at hc
      exact hrep k hc
    · exact not_sentinel_of_indented _ _ '=' hind hf (by decide) hc.symm
  · by_cases hlong : long
    · rw [hlong] at hc
      simp only [if_true] at hc
      exact hglp _ f hc.symm
    · rw [if_neg hlong] at hc
      obtain ⟨b, hb⟩ := GetShortFlagLine_shape (List.replicate k ' ') cols f
      rw [hb] at hc
      exact not_sentinel_of_indented _ ('-' :: '-' :: b) '-' hind rfl (by decide) hc.symm

theorem outputAllGroups_budget (cols : Int)
    (glp : List Char → CommandLineFlagInfo → List Char) :
    ∀ (gs : List DisplayInfoGroup) (pmf : Bool) (indent : Nat) (r : Int) (n : Nat),
      0 ≤ r →
      0 ≤ (outputAllGroups cols glp gs pmf indent r n).2.1 ∧
      ((outputAllGroups cols glp gs pmf indent r n).2.2 : Int) - (n : Int) ≤
        r - (outputAllGroups cols glp gs pmf indent r n).2.1 := by
  intro gs
  induction gs with
  | nil => intro pmf indent r n hr; simp [outputAllGroups]; omega
  | cons g gs ih =>
    intro pmf indent r n hr
    rw [outputAllGroups]
    simp only []
    obtain ⟨h1, h2⟩ := OutputSingleGroupWithLimit_budget g.group (List.replicate indent ' ')
      g.header g.footer pmf cols glp r n hr
    obtain ⟨h3, h4⟩ := ih false (indent - 1)
      (OutputSingleGroupWithLimit g.group (List.replicate indent ' ') g.header g.footer
        pmf cols glp r n).2.1
      (OutputSingleGroupWithLimit g.group (List.replicate indent ' ') g.header g.footer
        pmf cols glp r n).2.2 h1
    constructor
    · exact h3
    · omega

theorem outputAllGroups_no_sentinel (cols : Int)
    (glp : List Char → CommandLineFlagInfo → List Char)
    (hglp : ∀ ind f, glp ind f ≠ hiddenSentinel) :
    ∀ (gs : List DisplayInfoGroup) (pmf : Bool) (indent : Nat) (r : Int) (n : Nat),
      (∀ g ∈ gs, (g.header = [] ∨ g.header.head? = some '-') ∧
        (g.footer = [] ∨ g.footer.head? = some '=')) →
      hiddenSentinel ∉ (outputAllGroups cols glp gs pmf indent r n).1 := by
  intro gs
  induction gs with
  | nil => intro pmf indent r n _; simp [outputAllGroups]
  | cons g gs ih =>
    intro pmf indent r n hgs
    rw [outputAllGroups]
    simp only []
    intro hl
    rcases List.mem_append.mp hl with hl | hl
    · exact OutputSingleGroupWithLimit_no_sentinel g.group indent g.header g.footer pmf cols
        glp r n (hgs g (List.mem_cons_self g gs)).1 (hgs g (List.mem_cons_self g gs)).2 hglp hl
    · exact ih false (indent - 1) _ _ (fun g' hg' => hgs g' (List.mem_cons_of_mem g hg')) hl

theorem outputMembers_glp_irrelevant (ind : List Char) (cols : Int)
    (glp glp2 : List Char → CommandLineFlagInfo → List Char) :
    ∀ (g : List CommandLineFlagInfo) (r : Int) (n : Nat),
      outputMembers glp false ind cols g r n = outputMembers glp2 false ind cols g r n := by
  intro g
  induction g with
  | nil => intro r n; simp [outputMembers]
  | cons f fs ih =>
    intro r n
    rw [outputMembers, outputMembers]
    by_cases hr : r > 0
    · rw [if_pos hr, if_pos hr, ih (r - 1) (n + 1)]
      simp
    · rw [if_neg hr, if_neg hr]

theorem OutputSingleGroupWithLimit_glp_irrelevant (group : List CommandLineFlagInfo)
    (ind hdr ftr : List Char) (cols : Int)
    (glp glp2 : List Char → CommandLineFlagInfo → List Char) (r : Int) (n : Nat) :
    OutputSingleGroupWithLimit group ind hdr ftr false cols glp r n =
      OutputSingleGroupWithLimit group ind hdr ftr false cols glp2 r n := by
  rw [OutputSingleGroupWithLimit, OutputSingleGroupWithLimit]
  rw [outputMembers_glp_irrelevant ind cols glp glp2 group r n]
  rw [outputMembers_glp_irrelevant ind cols glp glp2 group (r - 2) n]

theorem outputAllGroups_glp_irrelevant (cols : Int)
    (glp glp2 : List Char → CommandLineFlagInfo → List Char) :
    ∀ (gs : List DisplayInfoGroup) (indent : Nat) (r : Int) (n : Nat),
      outputAllGroups cols glp gs false indent r n =
        outputAllGroups cols glp2 gs false indent r n := by
  intro gs
  induction gs with
  | nil => intro indent r n; rfl
  | cons g gs ih =>
    intro indent r n
    rw [outputAllGroups, outputAllGroups]
    rw [OutputSingleGroupWithLimit_glp_irrelevant g.group (List.replicate indent ' ')
      g.header g.footer cols glp glp2 r n]
    rw [ih (indent - 1)
      (OutputSingleGroupWithLimit g.group (List.replicate indent ' ') g.header g.footer
        false cols glp2 r n).2.1
      (OutputSingleGroupWithLimit g.group (List.replicate indent ' ') g.header g.footer
        false cols glp2 r n).2.2]

theorem mem_considerGroup (st : List DisplayInfoGroup × Int) (mx : Int) (cond : Bool)
    (g0 g : DisplayInfoGroup) (hg : g ∈ (considerGroup st mx cond g0).1) :
    g ∈ st.1 ∨ g = g0 := by
  rw [considerGroup] at hg
  split_ifs at hg
  · rcases List.mem_append.mp hg with h | h
    · exact Or.inl h
    · exact Or.inr (List.mem_singleton.mp h)
  · exact Or.inl hg

theorem head?_considerGroup (st : List DisplayInfoGroup × Int) (mx : Int) (cond : Bool)
    (g0 : DisplayInfoGroup) (hne : st.1 ≠ []) :
    (considerGroup st mx cond g0).1.head? = st.1.head? ∧ (considerGroup st mx cond g0).1 ≠ [] := by
  rw [considerGroup]
  split_ifs
  · constructor
    · exact List.head?_append_of_ne_nil _ hne
    · simp
  · exact ⟨rfl, hne⟩

theorem selectOutputGroups_subset (matching : List CommandLineFlagInfo)
    (nf : NotableFlags) (mx : Int) :
    ∀ g ∈ (selectOutputGroups matching nf mx).1,
      g = ⟨[], ftrPerfect, nf.perfect_match_flag⟩ ∨
      g = ⟨hdrModule, ftrModule, nf.module_flags⟩ ∨
      g = ⟨hdrPackage, ftrPackage, nf.package_flags⟩ ∨
      g = ⟨hdrCommon, ftrCommon, nf.most_common_flags⟩ ∨
      g = ⟨hdrSub, ftrSub, nf.subpackage_flags⟩ ∨
      g = ⟨hdrOther, [], RetrieveUnusedFlags matching nf⟩ := by
  intro g hg
  rw [selectOutputGroups] at hg
  simp only [] at hg
  rcases mem_considerGroup _ _ _ _ _ hg with hg | rfl
  rotate_left
  · tauto
  rcases mem_considerGroup _ _ _ _ _ hg with hg | rfl
  rotate_left
  · tauto
  rcases mem_considerGroup _ _ _ _ _ hg with hg | rfl
  rotate_left
  · tauto
  rcases mem_considerGroup _ _ _ _ _ hg with hg | rfl
  rotate_left
  · tauto
  rcases mem_considerGroup _ _ _ _ _ hg with hg | rfl
  rotate_left
  · tauto
  split_ifs at hg with h1
  · simp at hg
  · simp only [List.mem_singleton] at hg
    tauto

theorem selectOutputGroups_headers (matching : List CommandLineFlagInfo)
    (nf : NotableFlags) (mx : Int) :
    ∀ g ∈ (selectOutputGroups matching nf mx).1,
      (g.header = [] ∨ g.header.head? = some '-') ∧
      (g.footer = [] ∨ g.footer.head? = some '=') := by
  intro g hg
  rcases selectOutputGroups_subset matching nf mx g hg with rfl | rfl | rfl | rfl | rfl | rfl
  · exact ⟨Or.inl rfl, Or.inr (show ftrPerfect.head? = some '=' by decide)⟩
  · exact ⟨Or.inr (show hdrModule.head? = some '-' by decide),
      Or.inr (show ftrModule.head? = some '=' by decide)⟩
  · exact ⟨Or.inr (show hdrPackage.head? = some '-' by decide),
      Or.inr (show ftrPackage.head? = some '=' by decide)⟩
  · exact ⟨Or.inr (show hdrCommon.head? = some '-' by decide),
      Or.inr (show ftrCommon.head? = some '=' by decide)⟩
  · exact ⟨Or.inr (show hdrSub.head? = some '-' by decide),
      Or.inr (show ftrSub.head? = some '=' by decide)⟩
  · exact ⟨Or.inr (show hdrOther.head? = some '-' by decide), Or.inl rfl⟩

theorem selectOutputGroups_pmf (matching : List CommandLineFlagInfo)
    (nf : NotableFlags) (mx : Int) :
    ((selectOutputGroups matching nf mx).2 = true ↔ nf.perfect_match_flag ≠ []) ∧
    ((selectOutputGroups matching nf mx).2 = true →
      (selectOutputGroups matching nf mx).1.head?.map DisplayInfoGroup.group =
        some nf.perfect_match_flag) := by
  constructor
  · rw [selectOutputGroups]
    simp
  · intro hp
    have hpe : nf.perfect_match_flag.isEmpty = false := by
      rw [selectOutputGroups] at hp
      simp only [] at hp
      simpa using hp
    rw [selectOutputGroups]
    simp only []
    rw [if_neg (show ¬(nf.perfect_match_flag.isEmpty = true) by simp [hpe])]
    have h0 : (([⟨[], ftrPerfect, nf.perfect_match_flag⟩],
        SizeInLines ⟨[], ftrPerfect, nf.perfect_match_flag⟩) :
        List DisplayInfoGroup × Int).1 ≠ [] := by simp
    obtain ⟨e2, n2⟩ := head?_considerGroup _ mx (decide (nf.module_flags ≠ []))
      ⟨hdrModule, ftrModule, nf.module_flags⟩ h0
    obtain ⟨e3, n3⟩ := head?_considerGroup _ mx (decide (nf.package_flags ≠ []))
      ⟨hdrPackage, ftrPackage, nf.package_flags⟩ n2
    obtain ⟨e4, n4⟩ := head?_considerGroup _ mx (decide (nf.most_common_flags ≠ []))
      ⟨hdrCommon, ftrCommon, nf.most_common_flags⟩ n3
    obtain ⟨e5, n5⟩ := head?_considerGroup _ mx (decide (nf.subpackage_flags ≠ []))
      ⟨hdrSub, ftrSub, nf.subpackage_flags⟩ n4
    obtain ⟨e6, n6⟩ := head?_considerGroup _ mx
      (decide (RetrieveUnusedFlags matching nf ≠ []))
      ⟨hdrOther, [], RetrieveUnusedFlags matching nf⟩ n5
    rw [e6, e5, e4, e3, e2]
    rfl

/-- C3: excluding the fast path, if `returnAll` is not set the number of
flag lines emitted never exceeds the fixed 98-line cap, and the output of
the finalize pass ends with exactly one hidden-remaining sentinel line iff
the number of flag lines emitted differs from the size of the match set
(the hypothesis on the long renderer reflects that its real instantiation
`GetLongFlagLine` always begins with the indentation and a space). -/
theorem claim_C3_budget_and_sentinel (matching : List CommandLineFlagInfo)
    (opts : CompletionOptions) (nf : NotableFlags) (cols : Int)
    (glp : List Char → CommandLineFlagInfo → List Char)
    (hglp : ∀ ind f, glp ind f ≠ hiddenSentinel) :
    (opts.return_all_matching_flags = false →
      flagLinesEmitted matching opts nf cols glp ≤ 98) ∧
    (((FinalizeCompletionOutput matching opts nf cols glp).1.getLast? = some hiddenSentinel ∧
      (FinalizeCompletionOutput matching opts nf cols glp).1.count hiddenSentinel = 1) ↔
      flagLinesEmitted matching opts nf cols glp ≠ matching.length) := by
  have hmax : 0 ≤ maxDesiredLines opts := by
    rw [maxDesiredLines]
    split <;> norm_num
  obtain ⟨hb1, hb2⟩ := outputAllGroups_budget cols glp
    (selectOutputGroups matching nf (maxDesiredLines opts)).1
    (selectOutputGroups matching nf (maxDesiredLines opts)).2
    ((selectOutputGroups matching nf (maxDesiredLines opts)).1.length - 1)
    (maxDesiredLines opts) 0 hmax
  have hns := outputAllGroups_no_sentinel cols glp hglp
    (selectOutputGroups matching nf (maxDesiredLines opts)).1
    (selectOutputGroups matching nf (maxDesiredLines opts)).2
    ((selectOutputGroups matching nf (maxDesiredLines opts)).1.length - 1)
    (maxDesiredLines opts) 0
    (selectOutputGroups_headers matching nf (maxDesiredLines opts))
  constructor
  · intro hra
    have h98 : maxDesiredLines opts = 98 := by rw [maxDesiredLines, hra]; rfl
    rw [flagLinesEmitted]
    try simp only []
    omega
  · rw [FinalizeCompletionOutput, flagLinesEmitted]
    try simp only []
    split_ifs with hc
    · constructor
      · intro _
        exact hc
      · intro _
        constructor
        · exact List.getLast?_concat _
        · rw [List.count_append, List.count_eq_zero.mpr hns]
          simp
    · constructor
      · rintro ⟨-, hcnt⟩
        rw [List.count_eq_zero.mpr hns] at hcnt
        exact absurd hcnt.symm one_ne_zero
      · intro h
        exact absurd h hc

theorem glpZ_ne_sentinel (ind : List Char) (f : CommandLineFlagInfo) :
    glpZ ind f ≠ hiddenSentinel := by
  intro h
  have h2 : (['Z'] : List Char) = hiddenSentinel := h
  exact absurd h2 (by decide)

/-- Witness for C3 at a concrete input. -/
theorem claim_C3_budget_and_sentinel_witness :
    (CompletionOptions.return_all_matching_flags {} = false →
      flagLinesEmitted [flagHelp] {} {} 80 glpZ ≤ 98) ∧
    (((FinalizeCompletionOutput [flagHelp] {} {} 80 glpZ).1.getLast? = some hiddenSentinel ∧
      (FinalizeCompletionOutput [flagHelp] {} {} 80 glpZ).1.count hiddenSentinel = 1) ↔
      flagLinesEmitted [flagHelp] {} {} 80 glpZ ≠ ([flagHelp] : List CommandLineFlagInfo).length) :=
  claim_C3_budget_and_sentinel [flagHelp] {} {} 80 glpZ glpZ_ne_sentinel

/-- C7 counterexample: a non-empty group with a non-empty header reached
with only one line remaining in the shared counter emits nothing at all —
the member line the claim promises (one per flag up to the remaining
counter, here one) is not written, because the header check aborts the
entire group. -/
theorem claim_C7_cex :
    (OutputSingleGroupWithLimit [flagHelp] [] hdrOther [] false 80 glpZ 1 0).1 = [] ∧
    (OutputSingleGroupWithLimit [flagHelp] [] hdrOther [] false 80 glpZ 1 0).2.2 = 0 ∧
    hdrOther ≠ [] ∧ ([flagHelp] : List CommandLineFlagInfo) ≠ [] ∧ (0:Int) < 1 := by
  decide

/-- C7 amended: for a non-empty group with a non-empty header, when fewer
than two lines remain the entire group is skipped (no header, member, or
footer lines — not merely the header); otherwise the header text and a
dash underline of the header's length are written, the counter drops by
two, member lines are written one per flag up to the remaining counter
(stopping when it reaches zero), and a non-empty footer is written only
when at least one line then remains. -/
theorem claim_C7_amended (group : List CommandLineFlagInfo) (ind hdr ftr : List Char)
    (long : Bool) (cols : Int) (glp : List Char → CommandLineFlagInfo → List Char)
    (r : Int) (n : Nat) (hg : group ≠ []) (hh : hdr ≠ []) :
    (r < 2 →
      OutputSingleGroupWithLimit group ind hdr ftr long cols glp r n = ([], r, n)) ∧
    (2 ≤ r →
      (OutputSingleGroupWithLimit group ind hdr ftr long cols glp r n).1 =
        [ind ++ hdr, ind ++ List.replicate hdr.length '-'] ++
          (outputMembers glp long ind cols group (r - 2) n).1 ++
          (if ftr ≠ [] ∧ 1 ≤ (outputMembers glp long ind cols group (r - 2) n).2.1 then
            [ind ++ ftr] else []) ∧
      (outputMembers glp long ind cols group (r - 2) n).1.length =
        min group.length (r - 2).toNat ∧
      (OutputSingleGroupWithLimit group ind hdr ftr long cols glp r n).2.2 =
        n + min group.length (r - 2).toNat) := by
  have hgE : group.isEmpty = false := by simpa using hg
  have hhE : hdr.isEmpty = false := by simpa using hh
  obtain ⟨m1, m2, m3⟩ := outputMembers_spec glp long ind cols group (r - 2) n
  constructor
  · intro hr
    rw [OutputSingleGroupWithLimit]
    try simp only []
    rw [if_neg (by simp [hgE]), if_neg (by simp [hhE]), if_pos hr]
  · intro hr
    rw [OutputSingleGroupWithLimit]
    try simp only []
    rw [if_neg (by simp [hgE]), if_neg (by simp [hhE]), if_neg (by omega)]
    try simp only []
    split_ifs <;> simp_all [List.append_assoc] <;> try omega

/-- Witness for C7 amended at a concrete input. -/
theorem claim_C7_amended_witness :
    ([flagHelp] : List CommandLineFlagInfo) ≠ [] ∧ hdrOther ≠ [] ∧ (2:Int) ≤ 98 ∧
      (OutputSingleGroupWithLimit [flagHelp] [] hdrOther [] false 80 glpZ 98 0).2.2 =
        0 + min ([flagHelp] : List CommandLineFlagInfo).length ((98:Int) - 2).toNat :=
  ⟨by decide, by decide, by decide,
    ((claim_C7_amended [flagHelp] [] hdrOther [] false 80 glpZ 98 0 (by decide)
      (by decide)).2 (by decide)).2.2⟩

/-- C9 counterexample: a run reaching the emission pass with no perfect
match (token `he`, single flag `help`) renders the members of the very
first selected group — the "other flags" group — with the short format,
not the long format: the member line equals the short renderer's output
and differs from the long renderer's. -/
theorem claim_C9_cex :
    (FinalizeCompletionOutput [flagHelp] {}
        (CategorizeAllMatchingFlags [flagHelp] "he".toList [] [] '/') 80 glpZ).1 =
      [hdrOther, List.replicate hdrOther.length '-', GetShortFlagLine [] 80 flagHelp] ∧
    GetShortFlagLine [] 80 flagHelp ≠ glpZ [] flagHelp ∧
    (CategorizeAllMatchingFlags [flagHelp] "he".toList [] [] '/').perfect_match_flag = [] := by
  decide

/-- C9 amended: the `perfect_match_found` boolean is true exactly when the
perfect-match bucket is non-empty, in which case the perfect-match group
heads the plan; during emission the first group alone is rendered with the
long-format flag set to that boolean, and every later group is rendered
with the short format only (its output does not depend on the long
renderer at all). -/
theorem claim_C9_amended (matching : List CommandLineFlagInfo) (nf : NotableFlags)
    (mx : Int) (g : DisplayInfoGroup) (gs : List DisplayInfoGroup) (pmf : Bool)
    (indent : Nat) (r : Int) (n : Nat) (cols : Int)
    (glp glp2 : List Char → CommandLineFlagInfo → List Char) :
    ((selectOutputGroups matching nf mx).2 = true ↔ nf.perfect_match_flag ≠ []) ∧
    ((selectOutputGroups matching nf mx).2 = true →
      (selectOutputGroups matching nf mx).1.head?.map DisplayInfoGroup.group =
        some nf.perfect_match_flag) ∧
    (outputAllGroups cols glp gs false indent r n =
      outputAllGroups cols glp2 gs false indent r n) ∧
    (outputAllGroups cols glp (g :: gs) pmf indent r n =
      ((OutputSingleGroupWithLimit g.group (List.replicate indent ' ') g.header g.footer
          pmf cols glp r n).1 ++
        (outputAllGroups cols glp2 gs false (indent - 1)
          (OutputSingleGroupWithLimit g.group (List.replicate indent ' ') g.header g.footer
            pmf cols glp r n).2.1
          (OutputSingleGroupWithLimit g.group (List.replicate indent ' ') g.header g.footer
            pmf cols glp r n).2.2).1,
        (outputAllGroups cols glp2 gs false (indent - 1)
          (OutputSingleGroupWithLimit g.group (List.replicate indent ' ') g.header g.footer
            pmf cols glp r n).2.1
          (OutputSingleGroupWithLimit g.group (List.replicate indent ' ') g.header g.footer
            pmf cols glp r n).2.2).2)) := by
  refine ⟨(selectOutputGroups_pmf matching nf mx).1, (selectOutputGroups_pmf matching nf mx).2,
    outputAllGroups_glp_irrelevant cols glp glp2 gs indent r n, ?_⟩
  rw [outputAllGroups]
  try simp only []
  rw [outputAllGroups_glp_irrelevant cols glp glp2 gs (indent - 1)
    (OutputSingleGroupWithLimit g.group (List.replicate indent ' ') g.header g.footer
      pmf cols glp r n).2.1
    (OutputSingleGroupWithLimit g.group (List.replicate indent ' ') g.header g.footer
      pmf cols glp r n).2.2]

/-- Witness for C9 amended at a concrete input with a perfect match. -/
theorem claim_C9_amended_witness :
    ((selectOutputGroups [flagHe] (CategorizeAllMatchingFlags [flagHe] "he".toList [] [] '/')
        98).2 = true ↔
      (CategorizeAllMatchingFlags [flagHe] "he".toList [] [] '/').perfect_match_flag ≠ []) ∧
    ((selectOutputGroups [flagHe] (CategorizeAllMatchingFlags [flagHe] "he".toList [] [] '/')
        98).1.head?.map DisplayInfoGroup.group =
      some (CategorizeAllMatchingFlags [flagHe] "he".toList [] [] '/').perfect_match_flag) :=
  ⟨(claim_C9_amended [flagHe] (CategorizeAllMatchingFlags [flagHe] "he".toList [] [] '/') 98
      ⟨[], [], []⟩ [] false 0 98 0 80 glpZ glpZ).1,
    (claim_C9_amended [flagHe] (CategorizeAllMatchingFlags [flagHe] "he".toList [] [] '/') 98
      ⟨[], [], []⟩ [] false 0 98 0 80 glpZ glpZ).2.1 (by decide)⟩
